import Mathlib

/-!
Verification of the follower-side rollback state machine and peer RPC
helpers of the stalwart jmap-server repository.

Embedded from source:
* `src/cluster/follower/updates_rollback.rs`: `JMAPServer::handle_rollback_updates`
* `src/cluster/rpc/request.rs`: `Peer::send_request`, `Protocol::unwrap_request`,
  `Protocol::unwrap_response`

The storage collaborator (`delete_document`/`write` batches,
`apply_rollback_updates`, `remove_rollback_change`, `next_rollback_change`,
`get_last_log`) is external to the embedded file and is modelled as an
environment of oracles; the asynchronous channel primitives of the transport
are modelled by their observable outcomes.  `MergedChanges` and the
`Request`/`Response`/`Protocol` enumerations are declared in files outside the
given sources, so they are modelled from the spec where noted.
-/

namespace JmapRollback

/-- Collection identifiers.  Modelled from the spec: the `Collection` enum
lives in the external `store` crate; the spec treats it as an opaque
identifier, singling out `Thread` as the change-tracking-only collection. -/
inductive Collection
  | Principal
  | PushSubscription
  | Mail
  | Mailbox
  | Thread
  | Identity
  | EmailSubmission
  | VacationResponse
deriving DecidableEq

/-- Merged change-set for one (account, collection) target.  Modelled from the
spec: `changes_merge.rs` is not among the given sources; §3 of the spec
describes three sets of document ids (`inserts`, `updates`, `deletes`). -/
structure MergedChanges where
  inserts : Finset Nat
  updates : Finset Nat
  deletes : Finset Nat
deriving DecidableEq

/-- Emptiness check of a `MergedChanges`.  Modelled from the spec (§3):
a change-set is empty when all three document-id sets are empty. -/
def MergedChanges.is_empty (c : MergedChanges) : Bool :=
  decide (c.inserts = ∅ ∧ c.updates = ∅ ∧ c.deletes = ∅)

/-- Length-tagged block of the wire encoding: the element count followed by
the elements. -/
def encodeBlock (xs : List Nat) : List Nat :=
  xs.length :: xs

/-- Ascending enumeration of a finite set of document ids, the canonical list
form used by the wire encoding. -/
def setToList (s : Finset Nat) : List Nat :=
  (List.range (s.sup id + 1)).filter (fun n => n ∈ s)

/-- Serialization of a `MergedChanges`.  Modelled from the spec (§4.2):
a deterministic compact encoding of the three document-id sets (each set
enumerated in ascending order and length-tagged); serializing an empty
change-set fails rather than producing a zero-length payload. -/
def MergedChanges.serialize (c : MergedChanges) : Option (List Nat) :=
  if c.inserts = ∅ ∧ c.updates = ∅ ∧ c.deletes = ∅ then
    none
  else
    some (encodeBlock (setToList c.inserts) ++
      encodeBlock (setToList c.updates) ++
      encodeBlock (setToList c.deletes))

/-- Reads one length-tagged block, returning the block and the remainder. -/
def readBlock : List Nat → Option (List Nat × List Nat)
  | [] => none
  | n :: rest => if n ≤ rest.length then some (rest.take n, rest.drop n) else none

/-- Deserialization of a `MergedChanges`.  Modelled from the spec (§4.2):
inverse of `MergedChanges.serialize` on non-empty change-sets. -/
def MergedChanges.deserialize (bytes : List Nat) : Option MergedChanges :=
  match readBlock bytes with
  | some (i, r1) =>
    match readBlock r1 with
    | some (u, r2) =>
      match readBlock r2 with
      | some (d, r3) =>
        if r3 = [] then some ⟨i.toFinset, u.toFinset, d.toFinset⟩ else none
      | none => none
    | none => none
  | none => none

/-- Follower synchronization state (`State` in `cluster/mod.rs`): either
synchronized (the default) or mid-rollback for one target. -/
inductive State
  | Synchronized
  | Rollback (account_id : Nat) (collection : Collection) (changes : MergedChanges)
deriving DecidableEq

/-- Responses of the append-entries exchange (`AppendEntriesResponse` in
`cluster/log/mod.rs`), as described in §3 of the spec.  The serialized
change-set payload of `Update` is the byte list produced by
`MergedChanges.serialize`. -/
inductive AppendEntriesResponse
  | Continue
  | Update (account_id : Nat) (collection : Collection) (changes : List Nat)
      (is_rollback : Bool)
  | Match (match_log : Nat)
deriving DecidableEq

/-- RPC response envelope.  Modelled from the spec (§6): the `Response`
enumeration carries the protocol's message variants, among them
`AppendEntriesResponse`, and has a `None` sentinel. -/
inductive Response
  | None
  | AppendEntries (response : AppendEntriesResponse)
  | Pong
deriving DecidableEq

/-- RPC request envelope.  Modelled from the spec (§6): the `Request`
enumeration carries the protocol's message variants and has a `None`
sentinel. -/
inductive Request
  | None
  | Ping
  | BecomeFollower (term : Nat)
deriving DecidableEq

/-- Protocol envelope wrapping either a request or a response (spec §3). -/
inductive Protocol
  | Request (request : Request)
  | Response (response : Response)
deriving DecidableEq

/-- Storage-layer effects issued by a rollback round, recorded as a trace:
the atomic delete batch for speculative inserts, the rollback-update
application, and the removal of a target's rollback marker. -/
inductive Effect
  | DeleteBatch (account_id : Nat) (collection : Collection) (ids : Finset Nat)
  | ApplyUpdates (updates : List Nat)
  | RemoveRollback (account_id : Nat) (collection : Collection)
deriving DecidableEq

/-- Outcomes of the storage collaborator's calls, one oracle per external
operation used by `handle_rollback_updates` (spec §6).  Errors carry no
information the algorithm inspects, so they are `Except Unit`. -/
structure StoreEnv where
  delete_batch : Nat → Collection → Finset Nat → Except Unit Unit
  apply_updates : List Nat → Except Unit Bool
  remove_rollback : Nat → Collection → Except Unit Unit
  last_log : Except Unit (Option Nat)

/-- Step 1 of the round (`updates_rollback.rs:50-54`): the Thread collection
holds no actual records, so all three change sets are discarded for it. -/
def step1 (collection : Collection) (changes : MergedChanges) : MergedChanges :=
  if collection = Collection.Thread then ⟨∅, ∅, ∅⟩ else changes

/-- Step 2 of the round (`updates_rollback.rs:56-73`): when `inserts` is
non-empty, take the set out of `changes` and delete those documents from
local storage as one write batch for the target account; a failure aborts. -/
def step2 (env : StoreEnv) (account_id : Nat) (collection : Collection)
    (changes : MergedChanges) : Except Unit MergedChanges × List Effect :=
  if changes.inserts = ∅ then
    (.ok changes, [])
  else
    match env.delete_batch account_id collection changes.inserts with
    | .ok _ =>
      (.ok { changes with inserts := ∅ },
        [.DeleteBatch account_id collection changes.inserts])
    | .error _ =>
      (.error (), [.DeleteBatch account_id collection changes.inserts])

/-- Result of the update-queue step: either the round is over with a final
answer, or it continues with the current change-set. -/
inductive StepOut
  | done (result : Option (State × Response))
  | cont (changes : MergedChanges)
deriving DecidableEq

/-- Step 3 of the round (`updates_rollback.rs:75-99`): when the pending
update queue is non-empty, delegate to `apply_rollback_updates`; full
completion clears `updates` and `deletes` (the queue is emptied afterwards),
partial completion stops the round with `Continue` and a `Rollback` state,
and an applier error aborts. -/
def step3 (env : StoreEnv) (account_id : Nat) (collection : Collection)
    (changes : MergedChanges) (updates : List Nat) : StepOut × List Effect :=
  if updates = [] then
    (.cont changes, [])
  else
    match env.apply_updates updates with
    | .ok true =>
      (.cont { changes with updates := ∅, deletes := ∅ }, [.ApplyUpdates updates])
    | .ok false =>
      (.done (some (.Rollback account_id collection changes,
          .AppendEntries .Continue)),
        [.ApplyUpdates updates])
    | .error _ => (.done none, [.ApplyUpdates updates])

/-- One iteration of the loop body of `handle_rollback_updates`
(`updates_rollback.rs:47-128`), up to and including the removal of the
rollback marker: `Sum.inl` is a final answer of the whole call, `Sum.inr`
means the marker was removed and the next pending target must be fetched. -/
def roundBody (env : StoreEnv) (account_id : Nat) (collection : Collection)
    (changes : MergedChanges) (updates : List Nat) :
    (Option (State × Response) ⊕ Unit) × List Effect :=
  match step2 env account_id collection (step1 collection changes) with
  | (.error _, es) => (.inl none, es)
  | (.ok ch2, es) =>
    match step3 env account_id collection ch2 updates with
    | (.done r, es') => (.inl r, es ++ es')
    | (.cont ch3, es') =>
      if ch3.deletes ≠ ∅ ∨ ch3.updates ≠ ∅ then
        match ch3.serialize with
        | some s =>
          (.inl (some (.Rollback account_id collection ch3,
              .AppendEntries (.Update account_id collection s true))),
            es ++ es')
        | none => (.inl none, es ++ es')
      else
        match env.remove_rollback account_id collection with
        | .ok _ => (.inr (), es ++ es' ++ [.RemoveRollback account_id collection])
        | .error _ => (.inl none, es ++ es' ++ [.RemoveRollback account_id collection])

/-- Terminal branch of the round (`updates_rollback.rs:137-155`): with no
pending rollback target left, report `Match` with the node's last applied
log position; a missing or unreadable last log aborts. -/
def finishMatch (env : StoreEnv) : Option (State × Response) :=
  match env.last_log with
  | .ok (some last_log) => some (.Synchronized, .AppendEntries (.Match last_log))
  | .ok none => none
  | .error _ => none

/-- Shallow embedding of `JMAPServer::handle_rollback_updates`
(`updates_rollback.rs:40-163`).  `pending` is the stream of answers the
storage layer gives to successive `next_rollback_change` calls (spec §6:
pending targets are eventually exhausted, so an empty stream reads as
"no further target").  Returns the `Option (State, Response)` of the source
function together with the trace of storage effects issued. -/
def handle_rollback_updates (env : StoreEnv)
    (pending : List (Except Unit (Option (Nat × Collection × MergedChanges))))
    (account_id : Nat) (collection : Collection)
    (changes : MergedChanges) (updates : List Nat) :
    Option (State × Response) × List Effect :=
  match pending with
  | [] =>
    match roundBody env account_id collection changes updates with
    | (.inl r, es) => (r, es)
    | (.inr _, es) => (finishMatch env, es)
  | f :: rest =>
    match roundBody env account_id collection changes updates with
    | (.inl r, es) => (r, es)
    | (.inr _, es) =>
      match f with
      | .error _ => (none, es)
      | .ok none => (finishMatch env, es)
      | .ok (some (a, c, ch)) =>
        ((handle_rollback_updates env rest a c ch []).1,
          es ++ (handle_rollback_updates env rest a c ch []).2)

/-- Shallow embedding of `Peer::send_request` (`request.rs:31-45`): the
channel interaction is modelled by its observable outcome — whether the send
on the peer's channel succeeded, and what the one-shot reply slot yielded
(`none` meaning the slot was closed without a response).  The function is
total with result type `Response`: it never signals an error. -/
def send_request (send_ok : Bool) (reply : Option Response) : Response :=
  if send_ok then reply.getD Response.None else Response.None

/-- Embedding of `Protocol::unwrap_request` (`request.rs:57-62`). -/
def Protocol.unwrap_request (p : Protocol) : JmapRollback.Request :=
  match p with
  | .Request request => request
  | _ => .None

/-- Embedding of `Protocol::unwrap_response` (`request.rs:64-69`). -/
def Protocol.unwrap_response (p : Protocol) : JmapRollback.Response :=
  match p with
  | .Response response => response
  | _ => .None

/-! ### Concrete storage environments for witnesses -/

/-- Storage environment where every call succeeds, the applier reports full
completion, and the last applied log position is 42. -/
def envOk : StoreEnv where
  delete_batch := fun _ _ _ => .ok ()
  apply_updates := fun _ => .ok true
  remove_rollback := fun _ _ => .ok ()
  last_log := .ok (some 42)

/-- Storage environment whose applier always reports partial completion. -/
def envContinue : StoreEnv where
  delete_batch := fun _ _ _ => .ok ()
  apply_updates := fun _ => .ok false
  remove_rollback := fun _ _ => .ok ()
  last_log := .ok (some 42)

/-- Storage environment whose insert-deletion batch fails. -/
def envErrDelete : StoreEnv where
  delete_batch := fun _ _ _ => .error ()
  apply_updates := fun _ => .ok true
  remove_rollback := fun _ _ => .ok ()
  last_log := .ok (some 42)

/-- Storage environment whose rollback-update applier fails. -/
def envErrApply : StoreEnv where
  delete_batch := fun _ _ _ => .ok ()
  apply_updates := fun _ => .error ()
  remove_rollback := fun _ _ => .ok ()
  last_log := .ok (some 42)

/-- Storage environment where removing the rollback marker fails. -/
def envErrRemove : StoreEnv where
  delete_batch := fun _ _ _ => .ok ()
  apply_updates := fun _ => .ok true
  remove_rollback := fun _ _ => .error ()
  last_log := .ok (some 42)

/-- Storage environment where reading the last applied log fails. -/
def envErrLog : StoreEnv where
  delete_batch := fun _ _ _ => .ok ()
  apply_updates := fun _ => .ok true
  remove_rollback := fun _ _ => .ok ()
  last_log := .error ()

/-- Storage environment where the last applied log is reported missing. -/
def envLogNone : StoreEnv where
  delete_batch := fun _ _ _ => .ok ()
  apply_updates := fun _ => .ok true
  remove_rollback := fun _ _ => .ok ()
  last_log := .ok none

/-! ### Helper lemmas -/

lemma take_length_append (xs ys : List Nat) : (xs ++ ys).take xs.length = xs := by
  induction xs with
  | nil => rfl
  | cons x xs ih => simp [ih]

lemma drop_length_append (xs ys : List Nat) : (xs ++ ys).drop xs.length = ys := by
  induction xs with
  | nil => rfl
  | cons x xs ih => simp [ih]

lemma readBlock_encodeBlock (xs ys : List Nat) :
    readBlock (encodeBlock xs ++ ys) = some (xs, ys) := by
  simp [readBlock, encodeBlock, take_length_append, drop_length_append,
    Nat.le_add_right]

lemma mem_setToList (s : Finset Nat) (n : Nat) : n ∈ setToList s ↔ n ∈ s := by
  simp only [setToList, List.mem_filter, List.mem_range, decide_eq_true_eq]
  constructor
  · rintro ⟨-, h⟩
    exact h
  · intro h
    have h1 : id n ≤ s.sup id := Finset.le_sup h
    exact ⟨Nat.lt_succ_of_le h1, h⟩

lemma setToList_toFinset (s : Finset Nat) : (setToList s).toFinset = s := by
  ext n
  rw [List.mem_toFinset, mem_setToList]

lemma handle_unfold (env : StoreEnv)
    (pending : List (Except Unit (Option (Nat × Collection × MergedChanges))))
    (account_id : Nat) (collection : Collection) (changes : MergedChanges)
    (updates : List Nat) :
    handle_rollback_updates env pending account_id collection changes updates =
      match roundBody env account_id collection changes updates with
      | (.inl r, es) => (r, es)
      | (.inr _, es) =>
        match pending with
        | [] => (finishMatch env, es)
        | .error _ :: _ => (none, es)
        | .ok none :: _ => (finishMatch env, es)
        | .ok (some (a, c, ch)) :: rest =>
          ((handle_rollback_updates env rest a c ch []).1,
            es ++ (handle_rollback_updates env rest a c ch []).2) := by
  cases pending with
  | nil => rw [handle_rollback_updates]
  | cons f rest =>
    rw [handle_rollback_updates]
    rcases roundBody env account_id collection changes updates with ⟨rb | u, es⟩
    · rfl
    · rcases f with u' | o
      · rfl
      · rcases o with _ | ⟨a1, c1, ch1⟩ <;> rfl

lemma step2_ok (env : StoreEnv) (account_id : Nat) (collection : Collection)
    (changes ch2 : MergedChanges) (es : List Effect)
    (h : step2 env account_id collection changes = (.ok ch2, es)) :
    ch2.inserts = ∅ ∧ ch2.updates = changes.updates ∧ ch2.deletes = changes.deletes := by
  rw [step2] at h
  split at h
  · rename_i hemp
    simp only [Prod.mk.injEq, Except.ok.injEq] at h
    obtain ⟨rfl, rfl⟩ := h
    exact ⟨hemp, rfl, rfl⟩
  · rcases hd : env.delete_batch account_id collection changes.inserts with u | u <;>
      rw [hd] at h <;> try dsimp only at h
    · simp at h
    · simp only [Prod.mk.injEq, Except.ok.injEq] at h
      obtain ⟨h1, -⟩ := h
      subst h1
      exact ⟨rfl, rfl, rfl⟩

lemma step3_cont (env : StoreEnv) (account_id : Nat) (collection : Collection)
    (changes ch3 : MergedChanges) (updates : List Nat) (es : List Effect)
    (h : step3 env account_id collection changes updates = (.cont ch3, es)) :
    ch3.inserts = changes.inserts := by
  rw [step3] at h
  split at h
  · simp only [Prod.mk.injEq, StepOut.cont.injEq] at h
    obtain ⟨h1, -⟩ := h
    subst h1
    rfl
  · rcases ha : env.apply_updates updates with u | b <;> rw [ha] at h <;>
      try dsimp only at h
    · simp at h
    · cases b
      · simp at h
      · simp only [Prod.mk.injEq, StepOut.cont.injEq] at h
        obtain ⟨h1, -⟩ := h
        subst h1
        rfl

lemma finishMatch_shape (env : StoreEnv) (s : State) (r : Response)
    (h : finishMatch env = some (s, r)) : s = State.Synchronized := by
  rw [finishMatch] at h
  rcases hl : env.last_log with u | o <;> rw [hl] at h
  · simp at h
  · rcases o with _ | l <;> simp at h
    exact h.1.symm

lemma roundBody_inl_rollback (env : StoreEnv) (account_id : Nat)
    (collection : Collection) (changes ch' : MergedChanges) (updates : List Nat)
    (a' : Nat) (c' : Collection) (resp : Response) (es : List Effect)
    (h : roundBody env account_id collection changes updates
      = (.inl (some (.Rollback a' c' ch', resp)), es)) :
    ch'.inserts = ∅ ∧ a' = account_id ∧ c' = collection := by
  rw [roundBody] at h
  rcases h2 : step2 env account_id collection (step1 collection changes) with ⟨e2, es2⟩
  rw [h2] at h
  rcases e2 with u | ch2 <;> dsimp only at h
  · simp at h
  · rcases h3 : step3 env account_id collection ch2 updates with ⟨o3, es3⟩
    rw [h3] at h
    rcases o3 with r | ch3 <;> dsimp only at h
    · -- the round ended inside step3: only the partial-completion branch
      -- hands back a Rollback state, carrying ch2
      simp only [Prod.mk.injEq, Sum.inl.injEq] at h
      obtain ⟨rfl, rfl⟩ := h
      rw [step3] at h3
      split at h3
      · simp at h3
      · rcases ha : env.apply_updates updates with u | b <;> rw [ha] at h3 <;>
          try dsimp only at h3
        · simp at h3
        · cases b
          · simp only [Prod.mk.injEq, StepOut.done.injEq,
              Option.some.injEq, State.Rollback.injEq] at h3
            obtain ⟨⟨⟨ha', hc', hch⟩, -⟩, -⟩ := h3
            refine ⟨?_, ha'.symm, hc'.symm⟩
            rw [← hch]
            exact (step2_ok env account_id collection _ ch2 es2 h2).1
          · simp at h3
    · -- the round ended at the serialize branch, carrying ch3
      split at h
      · rcases hs : ch3.serialize with _ | s <;> rw [hs] at h <;> try dsimp only at h
        · simp at h
        · simp only [Prod.mk.injEq, Sum.inl.injEq, Option.some.injEq,
            State.Rollback.injEq] at h
          obtain ⟨⟨⟨ha', hc', hch⟩, -⟩, -⟩ := h
          refine ⟨?_, ha'.symm, hc'.symm⟩
          rw [← hch, step3_cont env account_id collection ch2 ch3 updates es3 h3]
          exact (step2_ok env account_id collection _ ch2 es2 h2).1
      · rcases hr : env.remove_rollback account_id collection with u | u <;>
          rw [hr] at h <;> try dsimp only at h
        all_goals simp at h

lemma roundBody_inr_remove (env : StoreEnv) (account_id : Nat)
    (collection : Collection) (changes : MergedChanges) (updates : List Nat)
    (es : List Effect)
    (h : roundBody env account_id collection changes updates = (.inr (), es)) :
    Effect.RemoveRollback account_id collection ∈ es := by
  rw [roundBody] at h
  rcases h2 : step2 env account_id collection (step1 collection changes) with ⟨e2, es2⟩
  rw [h2] at h
  rcases e2 with u | ch2 <;> dsimp only at h
  · simp at h
  · rcases h3 : step3 env account_id collection ch2 updates with ⟨o3, es3⟩
    rw [h3] at h
    rcases o3 with r | ch3 <;> dsimp only at h
    · simp at h
    · split at h
      · rcases hs : ch3.serialize with _ | s <;> rw [hs] at h <;> try dsimp only at h
        all_goals simp at h
      · rcases hr : env.remove_rollback account_id collection with u | u <;>
          rw [hr] at h <;> try dsimp only at h
        · simp at h
        · simp only [Prod.mk.injEq] at h
          obtain ⟨-, rfl⟩ := h
          simp

/-! ### Claim theorems -/

/-- C1: a rollback round on a non-Thread target with non-empty `inserts`,
empty update queue and empty `updates`/`deletes` sets deletes exactly the
ids in `inserts` as one atomic write batch scoped to that account and
collection, then removes the target's rollback marker, asks for the next
pending target, and — there being none — returns `State.Synchronized` with
`AppendEntriesResponse.Match` carrying the node's latest applied log
position. -/
theorem handle_rollback_insert_only (env : StoreEnv) (a l : Nat)
    (c : Collection) (ch : MergedChanges)
    (hc : c ≠ Collection.Thread) (hins : ch.inserts ≠ ∅)
    (hupd : ch.updates = ∅) (hdel : ch.deletes = ∅)
    (hdb : env.delete_batch a c ch.inserts = .ok ())
    (hrm : env.remove_rollback a c = .ok ())
    (hlog : env.last_log = .ok (some l)) :
    handle_rollback_updates env [.ok none] a c ch []
      = (some (.Synchronized, .AppendEntries (.Match l)),
          [.DeleteBatch a c ch.inserts, .RemoveRollback a c]) := by
  have hrb : roundBody env a c ch []
      = (.inr (), [.DeleteBatch a c ch.inserts, .RemoveRollback a c]) := by
    simp [roundBody, step1, step2, step3, hc, hins, hupd, hdel, hdb, hrm]
  rw [handle_unfold, hrb]
  dsimp only
  rw [finishMatch, hlog]

/-- Witness for C1: account 7, collection Mail, inserts {101, 102}. -/
theorem handle_rollback_insert_only_witness :
    handle_rollback_updates envOk [.ok none] 7 .Mail ⟨{101, 102}, ∅, ∅⟩ []
      = (some (.Synchronized, .AppendEntries (.Match 42)),
          [.DeleteBatch 7 .Mail {101, 102}, .RemoveRollback 7 .Mail]) :=
  handle_rollback_insert_only envOk 7 42 .Mail ⟨{101, 102}, ∅, ∅⟩
    (by decide) (by decide) rfl rfl rfl rfl rfl

/-- C2: with a non-empty update queue and no applier error, partial
completion stops the round with `Continue` and a `Rollback` state for the
same target, while full completion clears the `updates` and `deletes` sets
and empties the queue, after which the round proceeds exactly as a round
with nothing left to undo. -/
theorem handle_update_queue (env : StoreEnv)
    (pending : List (Except Unit (Option (Nat × Collection × MergedChanges))))
    (a : Nat) (c : Collection) (ch ch2 : MergedChanges) (up : List Nat)
    (es2 : List Effect)
    (h2 : step2 env a c (step1 c ch) = (.ok ch2, es2)) (hup : up ≠ []) :
    (env.apply_updates up = .ok false →
      handle_rollback_updates env pending a c ch up
        = (some (.Rollback a c ch2, .AppendEntries .Continue),
            es2 ++ [.ApplyUpdates up]))
    ∧ (env.apply_updates up = .ok true →
      (handle_rollback_updates env pending a c ch up).1
          = (handle_rollback_updates env pending a c ⟨∅, ∅, ∅⟩ []).1
        ∧ (handle_rollback_updates env pending a c ch up).2
          = es2 ++ [.ApplyUpdates up]
              ++ (handle_rollback_updates env pending a c ⟨∅, ∅, ∅⟩ []).2) := by
  constructor
  · intro ha
    have hrb : roundBody env a c ch up
        = (.inl (some (.Rollback a c ch2, .AppendEntries .Continue)),
            es2 ++ [.ApplyUpdates up]) := by
      rw [roundBody, h2]
      dsimp only
      rw [step3, if_neg hup, ha]
    rw [handle_unfold, hrb]
  · intro ha
    have hi := (step2_ok env a c (step1 c ch) ch2 es2 h2).1
    have hch3 : ({ ch2 with updates := ∅, deletes := ∅ } : MergedChanges)
        = ⟨∅, ∅, ∅⟩ := by
      obtain ⟨i, uu, dd⟩ := ch2
      dsimp only at hi
      subst hi
      rfl
    have h0 : step1 c (⟨∅, ∅, ∅⟩ : MergedChanges) = ⟨∅, ∅, ∅⟩ := by
      rw [step1, ite_self]
    rcases hrr : env.remove_rollback a c with u | u
    · have hrb0 : roundBody env a c ⟨∅, ∅, ∅⟩ []
          = (.inl none, [.RemoveRollback a c]) := by
        rw [roundBody, h0]
        simp [step2, step3, hrr]
      have hrb : roundBody env a c ch up
          = (.inl none, es2 ++ [.ApplyUpdates up] ++ [.RemoveRollback a c]) := by
        rw [roundBody, h2]
        dsimp only
        rw [step3, if_neg hup, ha]
        dsimp only
        rw [hch3]
        simp [hrr]
      rw [handle_unfold, hrb, handle_unfold, hrb0]
      simp
    · have hrb0 : roundBody env a c ⟨∅, ∅, ∅⟩ []
          = (.inr (), [.RemoveRollback a c]) := by
        rw [roundBody, h0]
        simp [step2, step3, hrr]
      have hrb : roundBody env a c ch up
          = (.inr (), es2 ++ [.ApplyUpdates up] ++ [.RemoveRollback a c]) := by
        rw [roundBody, h2]
        dsimp only
        rw [step3, if_neg hup, ha]
        dsimp only
        rw [hch3]
        simp [hrr]
      rw [handle_unfold, hrb, handle_unfold, hrb0]
      rcases pending with _ | ⟨f, rest⟩
      · simp
      · rcases f with u' | o
        · simp
        · rcases o with _ | ⟨a1, c1, ch1⟩ <;> simp

/-- Witness for C2: partial completion yields `Continue` preserving the
target, and full completion continues like a round with cleared sets. -/
theorem handle_update_queue_witness :
    (handle_rollback_updates envContinue [] 7 .Mail ⟨∅, ∅, {9}⟩ [3]
        = (some (.Rollback 7 .Mail ⟨∅, ∅, {9}⟩, .AppendEntries .Continue),
            [] ++ [.ApplyUpdates [3]]))
    ∧ ((handle_rollback_updates envOk [] 7 .Mail ⟨∅, ∅, {9}⟩ [3]).1
          = (handle_rollback_updates envOk [] 7 .Mail ⟨∅, ∅, ∅⟩ []).1
        ∧ (handle_rollback_updates envOk [] 7 .Mail ⟨∅, ∅, {9}⟩ [3]).2
          = [] ++ [.ApplyUpdates [3]]
              ++ (handle_rollback_updates envOk [] 7 .Mail ⟨∅, ∅, ∅⟩ []).2) :=
  ⟨(handle_update_queue envContinue [] 7 .Mail ⟨∅, ∅, {9}⟩ ⟨∅, ∅, {9}⟩ [3] []
      (by rfl) (by decide)).1 rfl,
   (handle_update_queue envOk [] 7 .Mail ⟨∅, ∅, {9}⟩ ⟨∅, ∅, {9}⟩ [3] []
      (by rfl) (by decide)).2 rfl⟩

/-- C3: when, after the insert-deletion and update-application steps, the
change-set still has a non-empty `deletes` or `updates` set, the round
serializes it; a failed serialization yields `none`, otherwise the round
returns `AppendEntriesResponse.Update` with `is_rollback = true` paired with
`State.Rollback` for the same target. -/
theorem handle_serialize_remaining (env : StoreEnv)
    (pending : List (Except Unit (Option (Nat × Collection × MergedChanges))))
    (a : Nat) (c : Collection) (ch ch2 ch3 : MergedChanges) (up : List Nat)
    (es2 es3 : List Effect)
    (h2 : step2 env a c (step1 c ch) = (.ok ch2, es2))
    (h3 : step3 env a c ch2 up = (.cont ch3, es3))
    (h4 : ch3.deletes ≠ ∅ ∨ ch3.updates ≠ ∅) :
    handle_rollback_updates env pending a c ch up =
      match ch3.serialize with
      | none => (none, es2 ++ es3)
      | some s =>
        (some (.Rollback a c ch3, .AppendEntries (.Update a c s true)),
          es2 ++ es3) := by
  rcases hs : ch3.serialize with _ | s
  · have hrb : roundBody env a c ch up = (.inl none, es2 ++ es3) := by
      rw [roundBody, h2]
      dsimp only
      rw [h3]
      dsimp only
      rw [if_pos h4, hs]
    rw [handle_unfold, hrb]
  · have hrb : roundBody env a c ch up
        = (.inl (some (.Rollback a c ch3, .AppendEntries (.Update a c s true))),
            es2 ++ es3) := by
      rw [roundBody, h2]
      dsimp only
      rw [h3]
      dsimp only
      rw [if_pos h4, hs]
    rw [handle_unfold, hrb]

/-- Witness for C3: a remaining `deletes = {9}` is serialized and returned
as a rollback `Update` for the same target. -/
theorem handle_serialize_remaining_witness :
    handle_rollback_updates envOk [] 7 .Mail ⟨∅, ∅, {9}⟩ []
      = (some (.Rollback 7 .Mail ⟨∅, ∅, {9}⟩,
          .AppendEntries (.Update 7 .Mail [0, 0, 1, 9] true)), []) := by
  rw [handle_serialize_remaining envOk [] 7 .Mail ⟨∅, ∅, {9}⟩ ⟨∅, ∅, {9}⟩
    ⟨∅, ∅, {9}⟩ [] [] [] (by rfl) (by rfl) (Or.inl (by decide))]
  decide

/-- C4 counterexample: a Thread-target round with non-empty `inserts`,
`updates` and `deletes` sets but a non-empty pending update queue does issue
a storage mutation (the rollback-update applier runs) and, on partial
completion, answers `Continue` instead of proceeding to the next pending
target — refuting the claim that every such round is mutation-free and
proceeds immediately. -/
theorem thread_round_counterexample :
    handle_rollback_updates envContinue [] 7 .Thread ⟨{1}, {2}, {3}⟩ [5]
        = (some (.Rollback 7 .Thread ⟨∅, ∅, ∅⟩, .AppendEntries .Continue),
            [.ApplyUpdates [5]])
      ∧ (handle_rollback_updates envContinue [] 7 .Thread ⟨{1}, {2}, {3}⟩ [5]).2
        ≠ [] := by
  refine ⟨by decide, by decide⟩

/-- C4 (amended): a Thread-target round with non-empty `inserts`, `updates`
and `deletes` sets and an empty pending update queue discards all three
change sets (the outcome does not depend on them), performs no
document-storage mutation — its only storage effect being the removal of
the target's rollback marker — and proceeds immediately to the next pending
rollback target. -/
theorem thread_round_discards (env : StoreEnv) (a a1 : Nat) (c1 : Collection)
    (ch ch1 : MergedChanges)
    (rest : List (Except Unit (Option (Nat × Collection × MergedChanges))))
    (hne1 : ch.inserts ≠ ∅) (hne2 : ch.updates ≠ ∅) (hne3 : ch.deletes ≠ ∅)
    (hrm : env.remove_rollback a .Thread = .ok ()) :
    handle_rollback_updates env (.ok (some (a1, c1, ch1)) :: rest) a .Thread ch []
      = ((handle_rollback_updates env rest a1 c1 ch1 []).1,
          .RemoveRollback a .Thread
            :: (handle_rollback_updates env rest a1 c1 ch1 []).2) := by
  have hrb : roundBody env a .Thread ch []
      = (.inr (), [.RemoveRollback a .Thread]) := by
    simp [roundBody, step1, step2, step3, hrm]
  rw [handle_unfold, hrb]
  simp

/-- Witness for the amended C4: a Thread target with sets {1}/{2}/{3} hands
over to the pending Mailbox target with only the marker removal recorded. -/
theorem thread_round_discards_witness :
    handle_rollback_updates envOk [.ok (some (8, .Mailbox, ⟨∅, ∅, ∅⟩))]
        7 .Thread ⟨{1}, {2}, {3}⟩ []
      = ((handle_rollback_updates envOk [] 8 .Mailbox ⟨∅, ∅, ∅⟩ []).1,
          .RemoveRollback 7 .Thread
            :: (handle_rollback_updates envOk [] 8 .Mailbox ⟨∅, ∅, ∅⟩ []).2) :=
  thread_round_discards envOk 7 8 .Mailbox ⟨{1}, {2}, {3}⟩ ⟨∅, ∅, ∅⟩ []
    (by decide) (by decide) (by decide) rfl

/-- C5: every storage-layer error — a failed insert-deletion batch, a failed
rollback-update application, a failed rollback-marker removal, a failed
fetch of the next rollback target, or a failed read of the last log —
makes `handle_rollback_updates` return no response (`none`). -/
theorem handle_storage_error_returns_none (env : StoreEnv) :
    (∀ pending a c ch up, (step1 c ch).inserts ≠ ∅ →
        env.delete_batch a c (step1 c ch).inserts = .error () →
        (handle_rollback_updates env pending a c ch up).1 = none)
    ∧ (∀ pending a c ch ch2 up es2,
        step2 env a c (step1 c ch) = (.ok ch2, es2) → up ≠ [] →
        env.apply_updates up = .error () →
        (handle_rollback_updates env pending a c ch up).1 = none)
    ∧ (∀ pending a c ch ch2 ch3 up es2 es3,
        step2 env a c (step1 c ch) = (.ok ch2, es2) →
        step3 env a c ch2 up = (.cont ch3, es3) →
        ch3.deletes = ∅ → ch3.updates = ∅ →
        env.remove_rollback a c = .error () →
        (handle_rollback_updates env pending a c ch up).1 = none)
    ∧ (∀ rest a c ch up es, roundBody env a c ch up = (.inr (), es) →
        (handle_rollback_updates env (.error () :: rest) a c ch up).1 = none)
    ∧ (∀ a c ch up es, roundBody env a c ch up = (.inr (), es) →
        env.last_log = .error () →
        (handle_rollback_updates env [] a c ch up).1 = none) := by
  refine ⟨?_, ?_, ?_, ?_, ?_⟩
  · intro pending a c ch up h1 hdb
    have hrb : roundBody env a c ch up
        = (.inl none, [.DeleteBatch a c (step1 c ch).inserts]) := by
      rw [roundBody, step2, if_neg h1, hdb]
    rw [handle_unfold, hrb]
  · intro pending a c ch ch2 up es2 h2 hup ha
    have hrb : roundBody env a c ch up
        = (.inl none, es2 ++ [.ApplyUpdates up]) := by
      rw [roundBody, h2]
      dsimp only
      rw [step3, if_neg hup, ha]
    rw [handle_unfold, hrb]
  · intro pending a c ch ch2 ch3 up es2 es3 h2 h3 hd hu hrr
    have hrb : roundBody env a c ch up
        = (.inl none, es2 ++ es3 ++ [.RemoveRollback a c]) := by
      rw [roundBody, h2]
      dsimp only
      rw [h3]
      dsimp only
      rw [if_neg (by simp [hd, hu]), hrr]
    rw [handle_unfold, hrb]
  · intro rest a c ch up es hrb
    rw [handle_unfold, hrb]
  · intro a c ch up es hrb hlog
    rw [handle_unfold, hrb]
    dsimp only
    rw [finishMatch, hlog]

/-- Witness for C5: each of the five error sites, exercised on a concrete
environment failing exactly there, yields `none`. -/
theorem handle_storage_error_returns_none_witness :
    (handle_rollback_updates envErrDelete [] 7 .Mail ⟨{1}, ∅, ∅⟩ []).1 = none
    ∧ (handle_rollback_updates envErrApply [] 7 .Mail ⟨∅, ∅, ∅⟩ [3]).1 = none
    ∧ (handle_rollback_updates envErrRemove [] 7 .Mail ⟨∅, ∅, ∅⟩ []).1 = none
    ∧ (handle_rollback_updates envOk [.error ()] 7 .Mail ⟨∅, ∅, ∅⟩ []).1 = none
    ∧ (handle_rollback_updates envErrLog [] 7 .Mail ⟨∅, ∅, ∅⟩ []).1 = none :=
  ⟨(handle_storage_error_returns_none envErrDelete).1 [] 7 .Mail ⟨{1}, ∅, ∅⟩ []
      (by decide) (by rfl),
   (handle_storage_error_returns_none envErrApply).2.1 [] 7 .Mail ⟨∅, ∅, ∅⟩
      ⟨∅, ∅, ∅⟩ [3] [] (by rfl) (by decide) rfl,
   (handle_storage_error_returns_none envErrRemove).2.2.1 [] 7 .Mail ⟨∅, ∅, ∅⟩
      ⟨∅, ∅, ∅⟩ ⟨∅, ∅, ∅⟩ [] [] [] (by rfl) (by rfl) rfl rfl rfl,
   (handle_storage_error_returns_none envOk).2.2.2.1 [] 7 .Mail ⟨∅, ∅, ∅⟩ []
      [.RemoveRollback 7 .Mail] (by rfl),
   (handle_storage_error_returns_none envErrLog).2.2.2.2 7 .Mail ⟨∅, ∅, ∅⟩ []
      [.RemoveRollback 7 .Mail] (by rfl) rfl⟩

/-- C9: whenever `handle_rollback_updates` hands back a `State.Rollback`
continuation, the `inserts` set of the carried change-set is empty:
speculative inserts are always either discarded (Thread) or fully deleted
before any rollback state is returned. -/
theorem rollback_state_has_no_inserts (env : StoreEnv)
    (pending : List (Except Unit (Option (Nat × Collection × MergedChanges)))) :
    ∀ a c ch up a' c' ch' resp,
      (handle_rollback_updates env pending a c ch up).1
          = some (.Rollback a' c' ch', resp) →
      ch'.inserts = ∅ := by
  induction pending with
  | nil =>
    intro a c ch up a' c' ch' resp h
    rw [handle_unfold] at h
    rcases hrb : roundBody env a c ch up with ⟨rb | u, es⟩ <;>
      rw [hrb] at h <;> try dsimp only at h
    · rw [h] at hrb
      exact (roundBody_inl_rollback env a c ch ch' up a' c' resp es hrb).1
    · have := finishMatch_shape env _ _ h
      simp at this
  | cons f rest ih =>
    intro a c ch up a' c' ch' resp h
    rw [handle_unfold] at h
    rcases hrb : roundBody env a c ch up with ⟨rb | u, es⟩ <;>
      rw [hrb] at h <;> try dsimp only at h
    · rw [h] at hrb
      exact (roundBody_inl_rollback env a c ch ch' up a' c' resp es hrb).1
    · rcases f with u' | o <;> try dsimp only at h
      · simp at h
      · rcases o with _ | ⟨a1, c1, ch1⟩ <;> try dsimp only at h
        · have := finishMatch_shape env _ _ h
          simp at this
        · exact ih a1 c1 ch1 [] a' c' ch' resp h

/-- Witness for C9: a round that returns a rollback continuation for the
remaining `deletes = {9}` carries an empty `inserts` set. -/
theorem rollback_state_has_no_inserts_witness :
    (handle_rollback_updates envContinue [] 7 .Mail ⟨∅, ∅, {9}⟩ []).1
        = some (.Rollback 7 .Mail ⟨∅, ∅, {9}⟩,
            .AppendEntries (.Update 7 .Mail [0, 0, 1, 9] true))
    ∧ (⟨∅, ∅, {9}⟩ : MergedChanges).inserts = ∅ :=
  ⟨by decide,
   rollback_state_has_no_inserts envContinue [] 7 .Mail ⟨∅, ∅, {9}⟩ []
     7 .Mail ⟨∅, ∅, {9}⟩
     (.AppendEntries (.Update 7 .Mail [0, 0, 1, 9] true)) (by decide)⟩

/-- C10: with all pending rollback targets drained and the storage layer
reporting no last applied log position, `handle_rollback_updates` returns
`none` rather than a `Match` response — even though the final target's
rollback marker has already been removed (the removal is in the round's
effect trace). -/
theorem handle_no_last_log (env : StoreEnv) (a : Nat) (c : Collection)
    (ch : MergedChanges) (up : List Nat) (es : List Effect)
    (hb : roundBody env a c ch up = (.inr (), es))
    (hlog : env.last_log = .ok none) :
    handle_rollback_updates env [] a c ch up = (none, es)
    ∧ Effect.RemoveRollback a c ∈ es := by
  refine ⟨?_, roundBody_inr_remove env a c ch up es hb⟩
  rw [handle_unfold, hb]
  dsimp only
  rw [finishMatch, hlog]

/-- Witness for C10: a drained pending queue with a missing last log yields
`none` although the marker for account 7 / Mail was already removed. -/
theorem handle_no_last_log_witness :
    handle_rollback_updates envLogNone [] 7 .Mail ⟨∅, ∅, ∅⟩ []
        = (none, [.RemoveRollback 7 .Mail])
    ∧ Effect.RemoveRollback 7 .Mail ∈ [Effect.RemoveRollback 7 .Mail] :=
  handle_no_last_log envLogNone 7 .Mail ⟨∅, ∅, ∅⟩ []
    [.RemoveRollback 7 .Mail] (by rfl) rfl

/-- C6: for any `MergedChanges` with at least one document id in some set,
`deserialize (serialize x) = x`; and `serialize` of an empty `MergedChanges`
fails rather than producing a zero-length payload. -/
theorem serialize_deserialize_roundtrip (x : MergedChanges) :
    ((x.inserts ≠ ∅ ∨ x.updates ≠ ∅ ∨ x.deletes ≠ ∅) →
      x.serialize.bind MergedChanges.deserialize = some x)
    ∧ (x.inserts = ∅ → x.updates = ∅ → x.deletes = ∅ → x.serialize = none) := by
  constructor
  · intro h
    have hne : ¬(x.inserts = ∅ ∧ x.updates = ∅ ∧ x.deletes = ∅) := by tauto
    have h3 : readBlock (encodeBlock (setToList x.deletes))
        = some (setToList x.deletes, []) := by
      rw [← List.append_nil (encodeBlock (setToList x.deletes))]
      exact readBlock_encodeBlock _ _
    rw [MergedChanges.serialize, if_neg hne]
    simp [MergedChanges.deserialize, List.append_assoc, readBlock_encodeBlock,
      h3, setToList_toFinset]
  · intro h1 h2 h3
    rw [MergedChanges.serialize, if_pos ⟨h1, h2, h3⟩]

/-- Witness for C6: a concrete non-empty change-set round-trips, and the
empty change-set does not serialize. -/
theorem serialize_deserialize_roundtrip_witness :
    ((⟨{1}, ∅, {2}⟩ : MergedChanges).serialize.bind MergedChanges.deserialize
        = some ⟨{1}, ∅, {2}⟩)
    ∧ (⟨∅, ∅, ∅⟩ : MergedChanges).serialize = none :=
  ⟨(serialize_deserialize_roundtrip ⟨{1}, ∅, {2}⟩).1 (Or.inl (by decide)),
   (serialize_deserialize_roundtrip ⟨∅, ∅, ∅⟩).2 rfl rfl rfl⟩

/-- C7: `Peer::send_request` resolves to the sentinel `Response.None` — never
an error (its result type is `Response`) — both when the send on the peer's
channel fails and when the one-shot reply slot closes without a response;
otherwise it returns the response delivered through the reply slot. -/
theorem send_request_resolves :
    (∀ reply, send_request false reply = Response.None)
    ∧ send_request true none = Response.None
    ∧ ∀ r, send_request true (some r) = r := by
  refine ⟨fun reply => rfl, rfl, fun r => rfl⟩

/-- C8: `unwrap_request` returns the contained request exactly on
`Protocol.Request` and the default `Request.None` on any other variant;
symmetrically `unwrap_response` returns the contained response exactly on
`Protocol.Response` and `Response.None` otherwise.  Both are total Lean
functions, so neither raises an exception. -/
theorem unwrap_defaults_on_mismatch :
    (∀ r, Protocol.unwrap_request (Protocol.Request r) = r)
    ∧ (∀ res, Protocol.unwrap_request (Protocol.Response res) = Request.None)
    ∧ (∀ res, Protocol.unwrap_response (Protocol.Response res) = res)
    ∧ ∀ r, Protocol.unwrap_response (Protocol.Request r) = Response.None := by
  exact ⟨fun r => rfl, fun res => rfl, fun res => rfl, fun r => rfl⟩

end JmapRollback
